import Mathlib

/-!
Verification of the chainer-compiler autodiff core and its numeric
execution layer: a shallow embedding of the runtime math operators
(runtime/ops/math.cc), the Sum simplifier, and the gradient construction
machinery (gradient_ops.cc), with theorems checking the natural-language
specification against the code.
-/

namespace ChainerCompiler

/-! ## Dtype model (chainerx::Dtype, external collaborator of this core)

The numeric execution layer operates on arrays carrying a chainerx dtype.
IsFloat and GetItemSize mirror the chainerx predicates used by
CoerceDtype in runtime/ops/math.cc. -/

/-- The chainerx scalar dtypes. -/
inductive Dtype where
  | bool
  | int8
  | int16
  | int32
  | int64
  | uint8
  | float16
  | float32
  | float64
deriving DecidableEq, Fintype, Repr

/-- chainerx IsFloat: true exactly on the floating dtypes. -/
def IsFloat : Dtype → Bool
  | .float16 => true
  | .float32 => true
  | .float64 => true
  | _ => false

/-- chainerx GetItemSize: width of one element in bytes. -/
def GetItemSize : Dtype → Nat
  | .bool => 1
  | .int8 => 1
  | .int16 => 2
  | .int32 => 4
  | .int64 => 8
  | .uint8 => 1
  | .float16 => 2
  | .float32 => 4
  | .float64 => 8

/-- CoerceDtype from runtime/ops/math.cc: the binary dtype coercion rule
for add/sub/mul/div/pow. The fatal CHECK(false) branch is modelled as
none. -/
def CoerceDtype (dtype0 dtype1 : Dtype) : Option Dtype :=
  if dtype0 = dtype1 then some dtype0
  else if IsFloat dtype0 && !IsFloat dtype1 then some dtype0
  else if !IsFloat dtype0 && IsFloat dtype1 then some dtype1
  else if GetItemSize dtype0 > GetItemSize dtype1 then some dtype0
  else if GetItemSize dtype0 < GetItemSize dtype1 then some dtype1
  else if dtype1 = Dtype.bool then some dtype0
  else if dtype0 = Dtype.bool then some dtype1
  else if dtype0 = Dtype.uint8 || dtype1 = Dtype.uint8 then some Dtype.int16
  else none

/-- C2: the binary coercion follows exactly the claimed precedence:
equal dtypes kept; a floating dtype beats a non-floating one; else the
wider item size wins; else a boolean loses to the other dtype; else if
either operand is unsigned 8-bit the result is signed 16-bit; any
remaining pair raises the fatal unsupported-coercion error (modelled as
none). -/
theorem c2_coerce_dtype_precedence :
    ∀ d0 d1 : Dtype,
      (d0 = d1 → CoerceDtype d0 d1 = some d0) ∧
      (d0 ≠ d1 → IsFloat d0 = true → IsFloat d1 = false →
        CoerceDtype d0 d1 = some d0) ∧
      (d0 ≠ d1 → IsFloat d0 = false → IsFloat d1 = true →
        CoerceDtype d0 d1 = some d1) ∧
      (d0 ≠ d1 → IsFloat d0 = IsFloat d1 → GetItemSize d1 < GetItemSize d0 →
        CoerceDtype d0 d1 = some d0) ∧
      (d0 ≠ d1 → IsFloat d0 = IsFloat d1 → GetItemSize d0 < GetItemSize d1 →
        CoerceDtype d0 d1 = some d1) ∧
      (d0 ≠ d1 → IsFloat d0 = IsFloat d1 → GetItemSize d0 = GetItemSize d1 →
        d1 = Dtype.bool → CoerceDtype d0 d1 = some d0) ∧
      (d0 ≠ d1 → IsFloat d0 = IsFloat d1 → GetItemSize d0 = GetItemSize d1 →
        d0 = Dtype.bool → CoerceDtype d0 d1 = some d1) ∧
      (d0 ≠ d1 → IsFloat d0 = IsFloat d1 → GetItemSize d0 = GetItemSize d1 →
        d0 ≠ Dtype.bool → d1 ≠ Dtype.bool →
        (d0 = Dtype.uint8 ∨ d1 = Dtype.uint8) →
        CoerceDtype d0 d1 = some Dtype.int16) ∧
      (d0 ≠ d1 → IsFloat d0 = IsFloat d1 → GetItemSize d0 = GetItemSize d1 →
        d0 ≠ Dtype.bool → d1 ≠ Dtype.bool →
        d0 ≠ Dtype.uint8 → d1 ≠ Dtype.uint8 →
        CoerceDtype d0 d1 = none) := by
  intro d0 d1
  refine ⟨?_, ?_, ?_, ?_, ?_, ?_, ?_, ?_, ?_⟩ <;> revert d0 d1 <;> decide

/-- Witness for C2: concrete instantiations of each reachable precedence
clause (equal pair; float beats non-float in both orders; wider size in
both orders; bool loses in both orders; the unsigned 8-bit rule). -/
theorem c2_coerce_dtype_precedence_witness :
    CoerceDtype Dtype.int32 Dtype.int32 = some Dtype.int32 ∧
    CoerceDtype Dtype.float32 Dtype.int64 = some Dtype.float32 ∧
    CoerceDtype Dtype.int64 Dtype.float32 = some Dtype.float32 ∧
    CoerceDtype Dtype.int32 Dtype.int16 = some Dtype.int32 ∧
    CoerceDtype Dtype.int16 Dtype.int32 = some Dtype.int32 ∧
    CoerceDtype Dtype.int8 Dtype.bool = some Dtype.int8 ∧
    CoerceDtype Dtype.bool Dtype.int8 = some Dtype.int8 ∧
    CoerceDtype Dtype.uint8 Dtype.int8 = some Dtype.int16 :=
  ⟨(c2_coerce_dtype_precedence Dtype.int32 Dtype.int32).1 rfl,
   (c2_coerce_dtype_precedence Dtype.float32 Dtype.int64).2.1
     (by decide) (by decide) (by decide),
   (c2_coerce_dtype_precedence Dtype.int64 Dtype.float32).2.2.1
     (by decide) (by decide) (by decide),
   (c2_coerce_dtype_precedence Dtype.int32 Dtype.int16).2.2.2.1
     (by decide) (by decide) (by decide),
   (c2_coerce_dtype_precedence Dtype.int16 Dtype.int32).2.2.2.2.1
     (by decide) (by decide) (by decide),
   (c2_coerce_dtype_precedence Dtype.int8 Dtype.bool).2.2.2.2.2.1
     (by decide) (by decide) (by decide) rfl,
   (c2_coerce_dtype_precedence Dtype.bool Dtype.int8).2.2.2.2.2.2.1
     (by decide) (by decide) (by decide) rfl,
   (c2_coerce_dtype_precedence Dtype.uint8 Dtype.int8).2.2.2.2.2.2.2.1
     (by decide) (by decide) (by decide) (by decide) (by decide)
     (Or.inl rfl)⟩

/-- C3: the coercion is commutative on every pair, and it is total over
the dtype universe: every pair yields a defined result or the explicit
fatal error, with no other outcome; in fact every pair is defined. -/
theorem c3_coerce_dtype_commutative_total :
    ∀ d0 d1 : Dtype,
      CoerceDtype d0 d1 = CoerceDtype d1 d0 ∧
      ((CoerceDtype d0 d1).isSome = true ∨ CoerceDtype d0 d1 = none) ∧
      (CoerceDtype d0 d1).isSome = true := by
  decide

/-! ## Gradient accumulation (GradientOpContext::SetGrad) -/

/-- A gradient expression graph rooted at a Value: either a contribution
handed to SetGrad by some consumer node, or the Add node emitted by the
AccumGrad graph builder. A leaf carries the numeric value its
contribution evaluates to. -/
inductive GradExpr where
  | leaf (g : Int)
  | add (a b : GradExpr)
deriving DecidableEq, Repr

/-- Evaluation of a gradient expression graph. -/
def evalGrad : GradExpr → Int
  | .leaf g => g
  | .add a b => evalGrad a + evalGrad b

/-- GradientOpContext::SetGrad acting on the gradient slot of one input:
when the input has no gradient yet the contribution gx is stored
directly; otherwise a new Add node combining the existing gradient and
gx is created and stored. -/
def SetGrad (old : Option GradExpr) (gx : GradExpr) : GradExpr :=
  match old with
  | some g => GradExpr.add g gx
  | none => gx

/-- The gradient slot of a Value after each of its consumer nodes has
called SetGrad once with its contribution, in order. -/
def accumGrads (init : Option GradExpr) (gs : List GradExpr) : Option GradExpr :=
  gs.foldl (fun st g => some (SetGrad st g)) init

theorem accumGrads_some (gs : List GradExpr) :
    ∀ e : GradExpr, ∃ r, accumGrads (some e) gs = some r ∧
      evalGrad r = evalGrad e + (gs.map evalGrad).sum := by
  induction gs with
  | nil => intro e; exact ⟨e, rfl, by simp⟩
  | cons g gs ih =>
      intro e
      obtain ⟨r, hr, hv⟩ := ih (GradExpr.add e g)
      exact ⟨r, hr, by simp [hv, evalGrad, add_assoc]⟩

/-- C1: SetGrad stores the contribution directly when no gradient is
present, combines with an Add node otherwise, and hence a Value consumed
by K nodes (K ≥ 1) ends with a gradient graph that evaluates to the sum
of all K contributions. -/
theorem c1_setgrad_accumulates :
    (∀ g, SetGrad none g = g) ∧
    (∀ old g, SetGrad (some old) g = GradExpr.add old g) ∧
    (∀ gs : List GradExpr, gs ≠ [] →
      ∃ r, accumGrads none gs = some r ∧
        evalGrad r = (gs.map evalGrad).sum) := by
  refine ⟨fun _ => rfl, fun _ _ => rfl, ?_⟩
  intro gs hne
  match gs with
  | g :: rest =>
      obtain ⟨r, hr, hv⟩ := accumGrads_some rest g
      exact ⟨r, hr, by simp [hv]⟩

/-- Witness for C1: three consumers contributing 1, 2 and 3 leave a
gradient graph evaluating to their sum. -/
theorem c1_setgrad_accumulates_witness :
    ∃ r, accumGrads none [GradExpr.leaf 1, GradExpr.leaf 2, GradExpr.leaf 3] = some r ∧
      evalGrad r = ([GradExpr.leaf 1, GradExpr.leaf 2, GradExpr.leaf 3].map evalGrad).sum :=
  c1_setgrad_accumulates.2.2 [GradExpr.leaf 1, GradExpr.leaf 2, GradExpr.leaf 3] (by decide)

/-! ## Sigmoid gradient rule (SigmoidGradFn) -/

/-- Fatal CHECK failures inside a gradient rule body. -/
inductive GradRuleError where
  | dtypePrecondition
deriving DecidableEq, Repr

/-- SigmoidGradFn from gradient_ops.cc: first CHECK_EQ(Dtype::kFloat32,
x(0) dtype); on success it emits t0 = Mul(gy, y), t1 = Sub(const 1, y)
and Mul(t0, t1) as the gradient of input 0. The emitted expression tree
is modelled by the rational value it computes elementwise from the
forward output y and the upstream gradient gy. -/
def SigmoidGradFn (dtype : Dtype) (y gy : ℚ) : Except GradRuleError ℚ :=
  if dtype = Dtype.float32 then
    let one : ℚ := 1
    let t0 := gy * y
    let t1 := one - y
    Except.ok (t0 * t1)
  else Except.error GradRuleError.dtypePrecondition

/-- Counterexample to C5: float64 is a floating dtype, yet the sigmoid
gradient rule fails fatally on it, because the code checks for exactly
the 32-bit float dtype rather than any floating dtype. -/
theorem c5_sigmoid_float64_counterexample :
    IsFloat Dtype.float64 = true ∧
    SigmoidGradFn Dtype.float64 0 0 = Except.error GradRuleError.dtypePrecondition :=
  ⟨rfl, rfl⟩

/-- C5 amended: the sigmoid gradient rule requires the 32-bit float
dtype exactly: on float32 input it succeeds and emits gy·y·(1−y) for
input 0, and on every other dtype (floating or not) it fails fatally
with the dtype-precondition error. -/
theorem c5_sigmoid_grad_requires_float32 :
    ∀ (d : Dtype) (y gy : ℚ),
      (d = Dtype.float32 → SigmoidGradFn d y gy = Except.ok (gy * y * (1 - y))) ∧
      (d ≠ Dtype.float32 → SigmoidGradFn d y gy = Except.error GradRuleError.dtypePrecondition) := by
  intro d y gy
  constructor
  · intro h; simp [SigmoidGradFn, h]
  · intro h; simp [SigmoidGradFn, h]

/-- Witness for C5 amended: a float32 success computing 2·(1/2)·(1/2)
and an int32 and a float64 fatal failure. -/
theorem c5_sigmoid_grad_requires_float32_witness :
    SigmoidGradFn Dtype.float32 (1/2) 2 = Except.ok (2 * (1/2) * (1 - 1/2)) ∧
    SigmoidGradFn Dtype.int32 (1/2) 2 = Except.error GradRuleError.dtypePrecondition ∧
    SigmoidGradFn Dtype.float64 (1/2) 2 = Except.error GradRuleError.dtypePrecondition :=
  ⟨(c5_sigmoid_grad_requires_float32 Dtype.float32 (1/2) 2).1 rfl,
   (c5_sigmoid_grad_requires_float32 Dtype.int32 (1/2) 2).2 (by decide),
   (c5_sigmoid_grad_requires_float32 Dtype.float64 (1/2) 2).2 (by decide)⟩

/-! ## Clip operator (ClipOp::RunImpl) -/

/-- chainerx Maximum of an array against a broadcast scalar, applied
elementwise. -/
def maximumScalar (xs : List ℚ) (s : ℚ) : List ℚ :=
  xs.map (fun e => max e s)

/-- Elementwise negation of an array. -/
def negArray (xs : List ℚ) : List ℚ :=
  xs.map (fun e => -e)

/-- ClipOp::RunImpl from runtime/ops/math.cc: the result is
-Maximum(-Maximum(x, min), -max) where min and max are the node
attributes. -/
def ClipOp (xs : List ℚ) (mn mx : ℚ) : List ℚ :=
  negArray (maximumScalar (negArray (maximumScalar xs mn)) (-mx))

theorem clip_pointwise (e mn mx : ℚ) :
    -(max (-(max e mn)) (-mx)) = min (max e mn) mx := by
  rcases le_total (max e mn) mx with h | h
  · rw [max_eq_left (neg_le_neg h), neg_neg, min_eq_left h]
  · rw [max_eq_right (neg_le_neg h), neg_neg, min_eq_right h]

/-- C9: for clip bounds min ≤ max, the Clip operator computed as
-Maximum(-Maximum(x, min), -max) equals the elementwise clamp of x into
the interval from min to max. -/
theorem c9_clip_is_clamp :
    ∀ (xs : List ℚ) (mn mx : ℚ), mn ≤ mx →
      ClipOp xs mn mx = xs.map (fun e => min (max e mn) mx) := by
  intro xs mn mx _
  unfold ClipOp negArray maximumScalar
  simp only [List.map_map]
  apply List.map_congr_left
  intro e _
  exact clip_pointwise e mn mx

/-- Witness for C9: clamping the array with entries -5, 1/2 and 7 into
the interval from 0 to 3. -/
theorem c9_clip_is_clamp_witness :
    ClipOp [-5, 1/2, 7] 0 3 = [-5, (1/2 : ℚ), 7].map (fun e => min (max e 0) 3) :=
  c9_clip_is_clamp [-5, 1/2, 7] 0 3 (by norm_num)

/-! ## Floor and Ceil operators -/

/-- A runtime array for the rounding operators: a dtype together with
its elementwise data. -/
structure XArray where
  dtype : Dtype
  data : List ℚ
deriving DecidableEq, Repr

/-- chainerx Floor applied elementwise. -/
def chainerxFloor (a : XArray) : XArray :=
  { a with data := a.data.map (fun q => ((Int.floor q : Int) : ℚ)) }

/-- chainerx Ceil applied elementwise. -/
def chainerxCeil (a : XArray) : XArray :=
  { a with data := a.data.map (fun q => ((Int.ceil q : Int) : ℚ)) }

/-- FloorOp::RunImpl: a non-floating input is returned unchanged;
otherwise chainerx Floor is applied. -/
def FloorOp (x : XArray) : XArray :=
  if !IsFloat x.dtype then x else chainerxFloor x

/-- CeilOp::RunImpl: a non-floating input is returned unchanged;
otherwise chainerx Ceil is applied. -/
def CeilOp (x : XArray) : XArray :=
  if !IsFloat x.dtype then x else chainerxCeil x

/-- C10: Floor and Ceil return any non-floating-dtype array unchanged,
invoking no rounding kernel, and apply the underlying rounding routines
exactly on floating-dtype inputs. -/
theorem c10_floor_ceil_identity_on_nonfloat :
    ∀ x : XArray,
      (IsFloat x.dtype = false → FloorOp x = x ∧ CeilOp x = x) ∧
      (IsFloat x.dtype = true → FloorOp x = chainerxFloor x ∧ CeilOp x = chainerxCeil x) := by
  intro x
  constructor
  · intro h; constructor <;> simp [FloorOp, CeilOp, h]
  · intro h; constructor <;> simp [FloorOp, CeilOp, h]

/-- Witness for C10: an int32 array with a non-integral entry passes
through Floor and Ceil untouched, while a float32 array is rounded. -/
theorem c10_floor_ceil_identity_on_nonfloat_witness :
    FloorOp ⟨Dtype.int32, [3/2]⟩ = ⟨Dtype.int32, [3/2]⟩ ∧
    CeilOp ⟨Dtype.int32, [3/2]⟩ = ⟨Dtype.int32, [3/2]⟩ ∧
    FloorOp ⟨Dtype.float32, [3/2]⟩ = chainerxFloor ⟨Dtype.float32, [3/2]⟩ ∧
    CeilOp ⟨Dtype.float32, [3/2]⟩ = chainerxCeil ⟨Dtype.float32, [3/2]⟩ :=
  ⟨((c10_floor_ceil_identity_on_nonfloat ⟨Dtype.int32, [3/2]⟩).1 rfl).1,
   ((c10_floor_ceil_identity_on_nonfloat ⟨Dtype.int32, [3/2]⟩).1 rfl).2,
   ((c10_floor_ceil_identity_on_nonfloat ⟨Dtype.float32, [3/2]⟩).2 rfl).1,
   ((c10_floor_ceil_identity_on_nonfloat ⟨Dtype.float32, [3/2]⟩).2 rfl).2⟩

/-! ## Gradient registry and dispatch (AddGradientForNode) -/

/-- Node operator kinds appearing in the source: the kinds registered in
the gradient registry plus kinds used elsewhere in the code that carry
no gradient rule (for example Shape, Cast, the backprop stack ops and
the backward loop reference). -/
inductive OpType where
  | add | sub | mul | div | neg | exp | sigmoid | relu | sqrt | tanh
  | identity | reshape | onikuxSelectItem
  | reduceSum | reduceMean | gemm | conv | maxPool | averagePool
  | logSoftmax | softmax | batchNormalization | lrn | dropout
  | greater | constant | loop
  | onikuxSequenceStack | onikuxSequenceAppend
  | matMul | pow | clip | floor | ceil | shape | expand | gather | cast
  | onikuxReluGrad | onikuxBackpropStackPush | onikuxBackpropStackPop
  | onikuxLoopRef | onikuxSequenceSplit | onikuxSequencePop | sum
deriving DecidableEq, Fintype, Repr

/-- Names of the gradient-rule functions held in the registry. -/
inductive GradFnId where
  | addGrad | subGrad | mulGrad | divGrad | negGrad | expGrad
  | sigmoidGrad | reluGrad | sqrtGrad | tanhGrad | identityGrad
  | reshapeGrad | selectItemGrad | reduceSumGrad | reduceMeanGrad
  | gemmGrad | convGrad | maxPoolGrad | averagePoolGrad
  | logSoftmaxGrad | softmaxGrad | batchNormalizationGrad | lrnGrad
  | doNothingGrad | loopGrad | sequenceStackGrad | sequenceAppendGrad
deriving DecidableEq, Repr

/-- A registry entry: declared input and output arity (negative means
variadic) and the rule function. -/
structure GradientFunc where
  numInputs : Int
  numOutputs : Int
  fn : GradFnId
deriving DecidableEq, Repr

/-- The gradient registry built once in AddGradientForNode, with the
arities exactly as registered in the source. -/
def gradientFuncRegistry : OpType → Option GradientFunc
  | .add => some ⟨2, 1, .addGrad⟩
  | .sub => some ⟨2, 1, .subGrad⟩
  | .mul => some ⟨2, 1, .mulGrad⟩
  | .div => some ⟨2, 1, .divGrad⟩
  | .neg => some ⟨1, 1, .negGrad⟩
  | .exp => some ⟨1, 1, .expGrad⟩
  | .sigmoid => some ⟨1, 1, .sigmoidGrad⟩
  | .relu => some ⟨1, 1, .reluGrad⟩
  | .sqrt => some ⟨1, 1, .sqrtGrad⟩
  | .tanh => some ⟨1, 1, .tanhGrad⟩
  | .identity => some ⟨1, 1, .identityGrad⟩
  | .reshape => some ⟨2, 1, .reshapeGrad⟩
  | .onikuxSelectItem => some ⟨2, 1, .selectItemGrad⟩
  | .reduceSum => some ⟨1, 1, .reduceSumGrad⟩
  | .reduceMean => some ⟨1, 1, .reduceMeanGrad⟩
  | .gemm => some ⟨3, 1, .gemmGrad⟩
  | .conv => some ⟨-1, 1, .convGrad⟩
  | .maxPool => some ⟨1, 1, .maxPoolGrad⟩
  | .averagePool => some ⟨1, 1, .averagePoolGrad⟩
  | .logSoftmax => some ⟨1, 1, .logSoftmaxGrad⟩
  | .softmax => some ⟨1, 1, .softmaxGrad⟩
  | .batchNormalization => some ⟨5, -1, .batchNormalizationGrad⟩
  | .lrn => some ⟨1, 1, .lrnGrad⟩
  | .dropout => some ⟨1, 1, .identityGrad⟩
  | .greater => some ⟨2, 1, .doNothingGrad⟩
  | .constant => some ⟨0, 1, .doNothingGrad⟩
  | .loop => some ⟨-1, -1, .loopGrad⟩
  | .onikuxSequenceStack => some ⟨1, 1, .sequenceStackGrad⟩
  | .onikuxSequenceAppend => some ⟨2, 1, .sequenceAppendGrad⟩
  | _ => none

/-- Fatal CHECK failures of the dispatch in AddGradientForNode. -/
inductive DispatchError where
  | notDifferentiable
  | inputArityMismatch
  | outputArityMismatch
deriving DecidableEq, Repr

/-- The shape of a node as seen by the dispatch: operator kind and the
sizes of its input and output lists. -/
structure NodeSig where
  op : OpType
  numInputs : Nat
  numOutputs : Nat
deriving DecidableEq, Repr

/-- AddGradientForNode dispatch: look the kind up in the registry
(absence is the fatal operator-not-differentiable CHECK, raised before
any graph mutation); for a non-negative declared arity check input and
output counts exactly; only then is the rule invoked, once, with the
freshly constructed context, modelled by returning the selected rule. -/
def AddGradientForNode (n : NodeSig) : Except DispatchError GradFnId :=
  match gradientFuncRegistry n.op with
  | none => Except.error DispatchError.notDifferentiable
  | some func =>
    if 0 ≤ func.numInputs ∧ (n.numInputs : Int) ≠ func.numInputs then
      Except.error DispatchError.inputArityMismatch
    else if 0 ≤ func.numOutputs ∧ (n.numOutputs : Int) ≠ func.numOutputs then
      Except.error DispatchError.outputArityMismatch
    else Except.ok func.fn

/-- C6: an unregistered operator kind fails with the
operator-not-differentiable error; a registered kind with a declared
non-variadic input or output arity that differs from the node fails with
an arity-mismatch error before the rule is invoked; otherwise the
registered rule itself is invoked. -/
theorem c6_dispatch_errors :
    ∀ n : NodeSig,
      (gradientFuncRegistry n.op = none →
        AddGradientForNode n = Except.error DispatchError.notDifferentiable) ∧
      (∀ func, gradientFuncRegistry n.op = some func →
        0 ≤ func.numInputs → (n.numInputs : Int) ≠ func.numInputs →
        AddGradientForNode n = Except.error DispatchError.inputArityMismatch) ∧
      (∀ func, gradientFuncRegistry n.op = some func →
        0 ≤ func.numOutputs → (n.numOutputs : Int) ≠ func.numOutputs →
        (AddGradientForNode n = Except.error DispatchError.inputArityMismatch ∨
         AddGradientForNode n = Except.error DispatchError.outputArityMismatch)) ∧
      (∀ func, gradientFuncRegistry n.op = some func →
        (0 ≤ func.numInputs → (n.numInputs : Int) = func.numInputs) →
        (0 ≤ func.numOutputs → (n.numOutputs : Int) = func.numOutputs) →
        AddGradientForNode n = Except.ok func.fn) := by
  intro n
  refine ⟨?_, ?_, ?_, ?_⟩
  · intro h
    simp [AddGradientForNode, h]
  · intro func h h0 hne
    simp [AddGradientForNode, h, h0, hne]
  · intro func h h0 hne
    by_cases hin : 0 ≤ func.numInputs ∧ (n.numInputs : Int) ≠ func.numInputs
    · exact Or.inl (by simp [AddGradientForNode, h, hin])
    · exact Or.inr (by simp [AddGradientForNode, h, hin, h0, hne])
  · intro func h hi ho
    have h1 : ¬(0 ≤ func.numInputs ∧ (n.numInputs : Int) ≠ func.numInputs) := by tauto
    have h2 : ¬(0 ≤ func.numOutputs ∧ (n.numOutputs : Int) ≠ func.numOutputs) := by tauto
    simp [AddGradientForNode, h, h1, h2]

/-- Witness for C6: Clip has no gradient rule; Add with three inputs or
two outputs hits the arity checks; Add with matching arity and variadic
Conv both reach their registered rule. -/
theorem c6_dispatch_errors_witness :
    AddGradientForNode ⟨OpType.clip, 1, 1⟩ = Except.error DispatchError.notDifferentiable ∧
    AddGradientForNode ⟨OpType.add, 3, 1⟩ = Except.error DispatchError.inputArityMismatch ∧
    (AddGradientForNode ⟨OpType.add, 2, 2⟩ = Except.error DispatchError.inputArityMismatch ∨
     AddGradientForNode ⟨OpType.add, 2, 2⟩ = Except.error DispatchError.outputArityMismatch) ∧
    AddGradientForNode ⟨OpType.add, 2, 1⟩ = Except.ok GradFnId.addGrad ∧
    AddGradientForNode ⟨OpType.conv, 5, 1⟩ = Except.ok GradFnId.convGrad :=
  ⟨(c6_dispatch_errors ⟨OpType.clip, 1, 1⟩).1 rfl,
   (c6_dispatch_errors ⟨OpType.add, 3, 1⟩).2.1 ⟨2, 1, .addGrad⟩ rfl (by decide) (by decide),
   (c6_dispatch_errors ⟨OpType.add, 2, 2⟩).2.2.1 ⟨2, 1, .addGrad⟩ rfl (by decide) (by decide),
   (c6_dispatch_errors ⟨OpType.add, 2, 1⟩).2.2.2 ⟨2, 1, .addGrad⟩ rfl
     (fun _ => by decide) (fun _ => by decide),
   (c6_dispatch_errors ⟨OpType.conv, 5, 1⟩).2.2.2 ⟨-1, 1, .convGrad⟩ rfl
     (fun h => absurd h (by decide)) (fun _ => by decide)⟩

/-! ## Loop gradient preconditions (LoopGradFn) -/

/-- The arity-relevant shape of a Loop node: sizes of the outer node's
input and output lists, of the body graph's input and output value
lists, and the accumulation (stack) axis attribute. -/
structure LoopNodeShape where
  numLoopInputs : Nat
  numLoopOutputs : Nat
  numBodyInputs : Nat
  numBodyOutputs : Nat
  stackAxis : Int
deriving DecidableEq, Repr

/-- OutputIterationCount instruments the forward loop before any check:
it adds one iteration-count input and output to the loop node and one
counter input and output to the body graph. -/
def OutputIterationCount (s : LoopNodeShape) : LoopNodeShape :=
  { s with numLoopInputs := s.numLoopInputs + 1,
           numLoopOutputs := s.numLoopOutputs + 1,
           numBodyInputs := s.numBodyInputs + 1,
           numBodyOutputs := s.numBodyOutputs + 1 }

/-- Number of state inputs of a loop: its inputs beyond the two control
inputs. -/
def numStates (s : LoopNodeShape) : Int := (s.numLoopInputs : Int) - 2

/-- Number of scan-style outputs: body outputs beyond the condition
output and the states. -/
def numScans (s : LoopNodeShape) : Int :=
  (s.numBodyOutputs : Int) - 1 - numStates s

/-- Fatal CHECK failures of the loop gradient rule. -/
inductive LoopGradError where
  | bodyInputArityMismatch
  | loopOutputArityMismatch
  | scanOutputsNotImplemented
  | stackAxisNotImplemented
deriving DecidableEq, Repr

/-- The precondition phase of LoopGradFn: after instrumenting via
OutputIterationCount it recomputes the counts and runs, in source order,
CHECK_EQ(num_body_inputs, num_states + 2),
CHECK_EQ(num_loop_outputs, num_states + num_scans),
CHECK_EQ(0, num_scans) and CHECK_EQ(0, stack axis); only when all pass
does the rule go on to synthesize the reverse loop (the ok result). -/
def LoopGradFn (s0 : LoopNodeShape) : Except LoopGradError Unit :=
  if ((OutputIterationCount s0).numBodyInputs : Int) ≠
      numStates (OutputIterationCount s0) + 2 then
    Except.error LoopGradError.bodyInputArityMismatch
  else if ((OutputIterationCount s0).numLoopOutputs : Int) ≠
      numStates (OutputIterationCount s0) + numScans (OutputIterationCount s0) then
    Except.error LoopGradError.loopOutputArityMismatch
  else if numScans (OutputIterationCount s0) ≠ 0 then
    Except.error LoopGradError.scanOutputsNotImplemented
  else if (OutputIterationCount s0).stackAxis ≠ 0 then
    Except.error LoopGradError.stackAxisNotImplemented
  else Except.ok ()

theorem numScans_outputIterationCount (s : LoopNodeShape) :
    numScans (OutputIterationCount s) = numScans s := by
  simp only [numScans, numStates, OutputIterationCount]
  push_cast
  ring

/-- C7: whenever the loop has a non-zero number of scan outputs or a
non-zero accumulation axis, the loop gradient rule fails fatally before
synthesizing the reverse loop; the reverse loop is built only when both
are zero. -/
theorem c7_loop_grad_preconditions :
    ∀ s0 : LoopNodeShape,
      (numScans s0 ≠ 0 ∨ s0.stackAxis ≠ 0 →
        ∃ e, LoopGradFn s0 = Except.error e) ∧
      (LoopGradFn s0 = Except.ok () → numScans s0 = 0 ∧ s0.stackAxis = 0) := by
  intro s0
  have hs : numScans (OutputIterationCount s0) = numScans s0 :=
    numScans_outputIterationCount s0
  have ha : (OutputIterationCount s0).stackAxis = s0.stackAxis := rfl
  constructor
  · intro h
    unfold LoopGradFn
    split_ifs with h1 h2 h3 h4
    · exact ⟨_, rfl⟩
    · exact ⟨_, rfl⟩
    · exact ⟨_, rfl⟩
    · exact ⟨_, rfl⟩
    · rw [hs] at h3
      rw [ha] at h4
      rcases h with h | h
      · exact absurd h h3
      · exact absurd h h4
  · intro h
    unfold LoopGradFn at h
    split_ifs at h with h1 h2 h3 h4
    · rw [hs] at h3
      rw [ha] at h4
      exact ⟨by omega, by omega⟩

/-- Witness for C7: a loop with one scan output errors, as does a loop
with accumulation axis one, while a consistent scan-free axis-zero loop
passes the checks; the two error shapes have two loop inputs (zero
states), a body of two inputs, and a body with two or one outputs
respectively. -/
theorem c7_loop_grad_preconditions_witness :
    (∃ e, LoopGradFn ⟨2, 1, 2, 2, 0⟩ = Except.error e) ∧
    (∃ e, LoopGradFn ⟨2, 0, 2, 1, 1⟩ = Except.error e) ∧
    (LoopGradFn ⟨3, 1, 3, 2, 0⟩ = Except.ok () →
      numScans ⟨3, 1, 3, 2, 0⟩ = 0 ∧ (⟨3, 1, 3, 2, 0⟩ : LoopNodeShape).stackAxis = 0) :=
  ⟨(c7_loop_grad_preconditions ⟨2, 1, 2, 2, 0⟩).1 (Or.inl (by decide)),
   (c7_loop_grad_preconditions ⟨2, 0, 2, 1, 1⟩).1 (Or.inr (by decide)),
   (c7_loop_grad_preconditions ⟨3, 1, 3, 2, 0⟩).2⟩

/-! ## Value retention (GradientOpContext::Retain, x, y) -/

/-- A Value as seen by the retention machinery: either a pre-existing
forward Value or the retained copy produced by a stack-pop node. -/
inductive RValue where
  | base (name : Nat)
  | retained (id : Nat)
deriving DecidableEq, Repr

/-- The nodes Retain can add: OnikuxBackpropStackPush consuming a value
and OnikuxBackpropStackPop producing the retained copy, each carrying a
correlation id. -/
inductive RNode where
  | stackPush (id : Nat) (input : RValue)
  | stackPop (id : Nat) (output : RValue)
deriving DecidableEq, Repr

/-- The correlation id carried by a push or pop node. -/
def RNode.nodeId : RNode → Nat
  | .stackPush id _ => id
  | .stackPop id _ => id

/-- State of the gradient construction context relevant to retention:
the retain flag, the process-wide id counter, and the nodes added so
far. -/
structure GradCtxState where
  retainInStack : Bool
  lastId : Nat
  nodes : List RNode
deriving DecidableEq, Repr

/-- Correlation ids handed out so far, as recorded on the added
push and pop nodes. -/
def issuedIds (s : GradCtxState) : List Nat := s.nodes.map RNode.nodeId

/-- GradientOpContext::Retain: without the retain flag the value is
returned unchanged; with it, the counter is incremented to a fresh id
and a push node consuming v and a pop node producing the retained copy
are added, both carrying that id. -/
def Retain (s : GradCtxState) (v : RValue) : RValue × GradCtxState :=
  if s.retainInStack then
    let id := s.lastId + 1
    let retained := RValue.retained id
    (retained,
     { s with lastId := id,
              nodes := s.nodes ++ [RNode.stackPush id v, RNode.stackPop id retained] })
  else (v, s)

/-- GradientOpContext::x — bounds-check the index, then Retain the i-th
input. -/
def ctxX (s : GradCtxState) (xs : List RValue) (i : Nat) :
    Option (RValue × GradCtxState) :=
  if h : i < xs.length then some (Retain s (xs.get ⟨i, h⟩)) else none

/-- GradientOpContext::y — bounds-check the index, then Retain the i-th
output. -/
def ctxY (s : GradCtxState) (ys : List RValue) (i : Nat) :
    Option (RValue × GradCtxState) :=
  if h : i < ys.length then some (Retain s (ys.get ⟨i, h⟩)) else none

/-- C8: with retention disabled, x(i) and y(i) return the underlying
value unchanged and add no node; with retention enabled, each access
adds one stack-push consuming the value and one stack-pop producing the
retained copy, both carrying the same freshly generated id, distinct
from every id handed out before, and the id bound is maintained. -/
theorem c8_retain_fresh_pairs :
    ∀ (s : GradCtxState) (vs : List RValue) (i : Nat) (hi : i < vs.length),
      (s.retainInStack = false →
        ctxX s vs i = some (vs.get ⟨i, hi⟩, s) ∧
        ctxY s vs i = some (vs.get ⟨i, hi⟩, s)) ∧
      (s.retainInStack = true →
        (∀ j, j ∈ issuedIds s → j ≤ s.lastId) →
        ∃ r s2, ctxX s vs i = some (r, s2) ∧ ctxY s vs i = some (r, s2) ∧
          r = RValue.retained (s.lastId + 1) ∧
          s2.nodes = s.nodes ++
            [RNode.stackPush (s.lastId + 1) (vs.get ⟨i, hi⟩),
             RNode.stackPop (s.lastId + 1) r] ∧
          (s.lastId + 1) ∉ issuedIds s ∧
          s2.lastId = s.lastId + 1 ∧
          (∀ j, j ∈ issuedIds s2 → j ≤ s2.lastId)) := by
  intro s vs i hi
  constructor
  · intro h
    constructor <;> simp [ctxX, ctxY, hi, Retain, h]
  · intro h hbound
    refine ⟨RValue.retained (s.lastId + 1),
      { s with lastId := s.lastId + 1,
               nodes := s.nodes ++
                 [RNode.stackPush (s.lastId + 1) (vs.get ⟨i, hi⟩),
                  RNode.stackPop (s.lastId + 1) (RValue.retained (s.lastId + 1))] },
      ?_, ?_, rfl, rfl, ?_, rfl, ?_⟩
    · simp [ctxX, hi, Retain, h]
    · simp [ctxY, hi, Retain, h]
    · intro hmem
      exact absurd (hbound _ hmem) (by omega)
    · intro j hj
      simp only [issuedIds, List.map_append, List.mem_append] at hj
      rcases hj with hj | hj
      · exact Nat.le_succ_of_le (hbound j hj)
      · simp [RNode.nodeId] at hj
        show j ≤ s.lastId + 1
        omega

/-- Witness for C8: with retention off the base value 7 passes through
with no new node; with retention on and counter at 5 the access yields
the retained value with fresh id 6 and adds the matching push and pop
pair. -/
theorem c8_retain_fresh_pairs_witness :
    (ctxX ⟨false, 5, [RNode.stackPush 5 (RValue.base 1)]⟩ [RValue.base 7] 0 =
      some (RValue.base 7, ⟨false, 5, [RNode.stackPush 5 (RValue.base 1)]⟩)) ∧
    (∃ r s2,
      ctxX ⟨true, 5, [RNode.stackPush 5 (RValue.base 1)]⟩ [RValue.base 7] 0 = some (r, s2) ∧
      ctxY ⟨true, 5, [RNode.stackPush 5 (RValue.base 1)]⟩ [RValue.base 7] 0 = some (r, s2) ∧
      r = RValue.retained 6 ∧
      s2.nodes = [RNode.stackPush 5 (RValue.base 1)] ++
        [RNode.stackPush 6 (RValue.base 7), RNode.stackPop 6 r] ∧
      (6 : Nat) ∉ issuedIds ⟨true, 5, [RNode.stackPush 5 (RValue.base 1)]⟩ ∧
      s2.lastId = 6 ∧
      (∀ j, j ∈ issuedIds s2 → j ≤ s2.lastId)) :=
  ⟨((c8_retain_fresh_pairs ⟨false, 5, [RNode.stackPush 5 (RValue.base 1)]⟩
      [RValue.base 7] 0 (by decide)).1 rfl).1,
   (c8_retain_fresh_pairs ⟨true, 5, [RNode.stackPush 5 (RValue.base 1)]⟩
      [RValue.base 7] 0 (by decide)).2 rfl (by decide)⟩

/-! ## Gemm semantics and gradient rule (GemmOp::RunImpl, GemmGradFn)

Arrays are modelled as rational-valued functions of two indices, with
the relevant dimension bounds passed explicitly to each contraction. -/

/-- An untyped two-dimensional array of rationals. -/
def M : Type := Nat → Nat → ℚ

/-- chainerx Dot restricted to 2-D arrays: contraction over the middle
dimension of length k. -/
def dotM (k : Nat) (A B : M) : M :=
  fun i j => ∑ l ∈ Finset.range k, A i l * B l j

/-- chainerx Transpose of a 2-D array. -/
def trM (A : M) : M := fun i j => A j i

/-- Operand adjustment by a Gemm transpose flag. -/
def opT : Bool → M → M
  | true, A => trM A
  | false, A => A

/-- GemmOp::RunImpl: alpha · op(A) · op(B) + beta · C, contraction
length k; the beta = 0 early return and the alpha = 1 / beta = 1 fast
paths of the source compute this same value. -/
def GemmRun (alpha beta : ℚ) (ta tb : Bool) (k : Nat) (A B C : M) : M :=
  fun i j => alpha * dotM k (opT ta A) (opT tb B) i j + beta * C i j

/-- An indicator array: 1 at position (i, j), 0 elsewhere. -/
def unitM (i j : Nat) : M :=
  fun p q => if p = i ∧ q = j then 1 else 0

/-- GemmGradFn, gradient emitted for input 0 (before the value-preserving
Reshape to the shape of input 0): on trans_a the node
Gemm(B, gy, A) with alpha, beta 0, trans_a = trans_b, trans_b = true;
otherwise Gemm(gy, B, A) with alpha, beta 0, trans_a = false,
trans_b = not trans_b. The contraction length is the column count n of
the forward output. -/
def GemmGradA (alpha : ℚ) (ta tb : Bool) (n : Nat) (A B gy : M) : M :=
  match ta with
  | true => GemmRun alpha 0 tb true n B gy A
  | false => GemmRun alpha 0 false (!tb) n gy B A

/-- GemmGradFn, gradient emitted for input 1 (before the Reshape): on
trans_b the node Gemm(gy, A, B) with alpha, beta 0, trans_a = true,
trans_b = trans_a; otherwise Gemm(A, gy, B) with alpha, beta 0,
trans_a = not trans_a, trans_b = false. The contraction length is the
row count m of the forward output. -/
def GemmGradB (alpha : ℚ) (ta tb : Bool) (m : Nat) (A B gy : M) : M :=
  match tb with
  | true => GemmRun alpha 0 true ta m gy A B
  | false => GemmRun alpha 0 (!ta) false m A gy B

/-- ReduceSum over axes {0} with keepdims false, on an array with m
rows: the column sums. -/
def ReduceSumAxis0 (m : Nat) (X : M) : Nat → ℚ :=
  fun j => ∑ i ∈ Finset.range m, X i j

/-- GemmGradFn, gradient emitted for input 2 (the bias): ReduceSum of
gy over axes {0}, keepdims false. -/
def GemmGradC (m : Nat) (gy : M) : Nat → ℚ :=
  ReduceSumAxis0 m gy

theorem dotM_add_smul_left (k : Nat) (t : ℚ) (Aa Ea Bb : M) (p q : Nat) :
    dotM k (fun a b => Aa a b + t * Ea a b) Bb p q =
      dotM k Aa Bb p q + t * dotM k Ea Bb p q := by
  simp only [dotM, Finset.mul_sum]
  rw [← Finset.sum_add_distrib]
  exact Finset.sum_congr rfl fun l _ => by ring

theorem dotM_add_smul_right (k : Nat) (t : ℚ) (Aa Bb Eb : M) (p q : Nat) :
    dotM k Aa (fun a b => Bb a b + t * Eb a b) p q =
      dotM k Aa Bb p q + t * dotM k Aa Eb p q := by
  simp only [dotM, Finset.mul_sum]
  rw [← Finset.sum_add_distrib]
  exact Finset.sum_congr rfl fun l _ => by ring

theorem dotM_unitM_left (k i j p q : Nat) (hj : j < k) (Bb : M) :
    dotM k (unitM i j) Bb p q = if p = i then Bb j q else 0 := by
  unfold dotM unitM
  by_cases hp : p = i
  · subst hp
    rw [Finset.sum_eq_single j]
    · simp
    · intro l _ hl
      simp [hl]
    · intro hmem
      exact absurd (Finset.mem_range.mpr hj) hmem
  · rw [Finset.sum_eq_zero]
    · simp [hp]
    · intro l _
      simp [hp]

theorem dotM_unitM_left_tr (k i j p q : Nat) (hi : i < k) (Bb : M) :
    dotM k (trM (unitM i j)) Bb p q = if p = j then Bb i q else 0 := by
  unfold dotM trM unitM
  by_cases hp : p = j
  · subst hp
    rw [Finset.sum_eq_single i]
    · simp
    · intro l _ hl
      simp [hl]
    · intro hmem
      exact absurd (Finset.mem_range.mpr hi) hmem
  · rw [Finset.sum_eq_zero]
    · simp [hp]
    · intro l _
      have hc : ¬(l = i ∧ p = j) := fun hc => hp hc.2
      simp [hc]

theorem dotM_unitM_right (k i j p q : Nat) (hi : i < k) (Aa : M) :
    dotM k Aa (unitM i j) p q = if q = j then Aa p i else 0 := by
  unfold dotM unitM
  by_cases hq : q = j
  · subst hq
    rw [Finset.sum_eq_single i]
    · simp
    · intro l _ hl
      simp [hl]
    · intro hmem
      exact absurd (Finset.mem_range.mpr hi) hmem
  · rw [Finset.sum_eq_zero]
    · simp [hq]
    · intro l _
      simp [hq]

theorem dotM_unitM_right_tr (k i j p q : Nat) (hj : j < k) (Aa : M) :
    dotM k Aa (trM (unitM i j)) p q = if q = i then Aa p j else 0 := by
  unfold dotM trM unitM
  by_cases hq : q = i
  · subst hq
    rw [Finset.sum_eq_single j]
    · simp
    · intro l _ hl
      simp [hl]
    · intro hmem
      exact absurd (Finset.mem_range.mpr hj) hmem
  · rw [Finset.sum_eq_zero]
    · simp [hq]
    · intro l _
      have hc : ¬(q = i ∧ l = j) := fun hc => hq hc.1
      simp [hc]

theorem opT_false (A : M) : opT false A = A := rfl

theorem opT_true (A : M) : opT true A = trM A := rfl

theorem grad_sum_A_false (alpha : ℚ) (tb : Bool) (m n k i j : Nat)
    (hi : i < m) (hj : j < k) (B C gy : M) :
    (∑ p ∈ Finset.range m, ∑ q ∈ Finset.range n,
      gy p q * GemmRun alpha 0 false tb k (unitM i j) B C p q) =
    alpha * ∑ q ∈ Finset.range n, gy i q * opT tb B j q := by
  have hrw : ∀ p q : Nat, gy p q * GemmRun alpha 0 false tb k (unitM i j) B C p q =
      if p = i then gy p q * (alpha * opT tb B j q) else 0 := by
    intro p q
    simp only [GemmRun, opT_false, opT_true, zero_mul, add_zero]
    rw [dotM_unitM_left k i j p q hj (opT tb B)]
    by_cases hp : p = i <;> simp [hp]
  rw [Finset.sum_congr rfl fun p _ => Finset.sum_congr rfl fun q _ => hrw p q]
  rw [Finset.sum_eq_single i]
  · rw [Finset.mul_sum]
    refine Finset.sum_congr rfl fun q _ => ?_
    rw [if_pos rfl]
    ring
  · intro p _ hp
    exact Finset.sum_eq_zero fun q _ => if_neg hp
  · intro hmem
    exact absurd (Finset.mem_range.mpr hi) hmem

theorem grad_sum_A_true (alpha : ℚ) (tb : Bool) (m n k i j : Nat)
    (hi : i < k) (hj : j < m) (B C gy : M) :
    (∑ p ∈ Finset.range m, ∑ q ∈ Finset.range n,
      gy p q * GemmRun alpha 0 true tb k (unitM i j) B C p q) =
    alpha * ∑ q ∈ Finset.range n, gy j q * opT tb B i q := by
  have hrw : ∀ p q : Nat, gy p q * GemmRun alpha 0 true tb k (unitM i j) B C p q =
      if p = j then gy p q * (alpha * opT tb B i q) else 0 := by
    intro p q
    simp only [GemmRun, opT_false, opT_true, zero_mul, add_zero]
    rw [dotM_unitM_left_tr k i j p q hi (opT tb B)]
    by_cases hp : p = j <;> simp [hp]
  rw [Finset.sum_congr rfl fun p _ => Finset.sum_congr rfl fun q _ => hrw p q]
  rw [Finset.sum_eq_single j]
  · rw [Finset.mul_sum]
    refine Finset.sum_congr rfl fun q _ => ?_
    rw [if_pos rfl]
    ring
  · intro p _ hp
    exact Finset.sum_eq_zero fun q _ => if_neg hp
  · intro hmem
    exact absurd (Finset.mem_range.mpr hj) hmem

theorem grad_sum_B_false (alpha : ℚ) (ta : Bool) (m n k i j : Nat)
    (hi : i < k) (hj : j < n) (A C gy : M) :
    (∑ p ∈ Finset.range m, ∑ q ∈ Finset.range n,
      gy p q * GemmRun alpha 0 ta false k A (unitM i j) C p q) =
    alpha * ∑ p ∈ Finset.range m, opT ta A p i * gy p j := by
  have hrw : ∀ p q : Nat, gy p q * GemmRun alpha 0 ta false k A (unitM i j) C p q =
      if q = j then gy p q * (alpha * opT ta A p i) else 0 := by
    intro p q
    simp only [GemmRun, opT_false, opT_true, zero_mul, add_zero]
    rw [dotM_unitM_right k i j p q hi (opT ta A)]
    by_cases hq : q = j <;> simp [hq]
  rw [Finset.sum_congr rfl fun p _ => Finset.sum_congr rfl fun q _ => hrw p q]
  rw [Finset.sum_congr rfl fun p _ =>
    Finset.sum_eq_single j (fun q _ hq => if_neg hq)
      (fun hmem => absurd (Finset.mem_range.mpr hj) hmem)]
  rw [Finset.mul_sum]
  refine Finset.sum_congr rfl fun p _ => ?_
  rw [if_pos rfl]
  ring

theorem grad_sum_B_true (alpha : ℚ) (ta : Bool) (m n k i j : Nat)
    (hi : i < n) (hj : j < k) (A C gy : M) :
    (∑ p ∈ Finset.range m, ∑ q ∈ Finset.range n,
      gy p q * GemmRun alpha 0 ta true k A (unitM i j) C p q) =
    alpha * ∑ p ∈ Finset.range m, gy p i * opT ta A p j := by
  have hrw : ∀ p q : Nat, gy p q * GemmRun alpha 0 ta true k A (unitM i j) C p q =
      if q = i then gy p q * (alpha * opT ta A p j) else 0 := by
    intro p q
    simp only [GemmRun, opT_false, opT_true, zero_mul, add_zero]
    rw [dotM_unitM_right_tr k i j p q hj (opT ta A)]
    by_cases hq : q = i <;> simp [hq]
  rw [Finset.sum_congr rfl fun p _ => Finset.sum_congr rfl fun q _ => hrw p q]
  rw [Finset.sum_congr rfl fun p _ =>
    Finset.sum_eq_single i (fun q _ hq => if_neg hq)
      (fun hmem => absurd (Finset.mem_range.mpr hi) hmem)]
  rw [Finset.mul_sum]
  refine Finset.sum_congr rfl fun p _ => ?_
  rw [if_pos rfl]
  ring

/-- C4: the Gemm gradient rule realizes the closed forms. The forward
Gemm is affine in each matrix operand, with directional derivative given
by the beta-zero Gemm of the perturbation (first two conjuncts), and the
gradient nodes emitted by GemmGradFn for inputs 0 and 1 compute, at
every in-range position of the stored operand, exactly the sum over all
output positions of gy times that partial derivative of the forward
output, for every combination of trans_a and trans_b and every alpha.
In the flagless case the emitted gradients are literally
alpha·(gy·Bᵀ) and alpha·(Aᵀ·gy), and the bias gradient is the
keepdims-false axis-0 reduction of gy. The Reshape node that wraps each
emitted matrix gradient is value-preserving and not modelled. -/
theorem c4_gemm_grad_closed_forms :
    ∀ (alpha beta : ℚ) (ta tb : Bool) (m n k : Nat) (A B C gy : M),
      (∀ (t : ℚ) (E : M) (p q : Nat),
        GemmRun alpha beta ta tb k (fun a b => A a b + t * E a b) B C p q =
          GemmRun alpha beta ta tb k A B C p q +
            t * GemmRun alpha 0 ta tb k E B C p q) ∧
      (∀ (t : ℚ) (E : M) (p q : Nat),
        GemmRun alpha beta ta tb k A (fun a b => B a b + t * E a b) C p q =
          GemmRun alpha beta ta tb k A B C p q +
            t * GemmRun alpha 0 ta tb k A E C p q) ∧
      (∀ i j : Nat, i < cond ta k m → j < cond ta m k →
        GemmGradA alpha ta tb n A B gy i j =
          ∑ p ∈ Finset.range m, ∑ q ∈ Finset.range n,
            gy p q * GemmRun alpha 0 ta tb k (unitM i j) B C p q) ∧
      (∀ i j : Nat, i < cond tb n k → j < cond tb k n →
        GemmGradB alpha ta tb m A B gy i j =
          ∑ p ∈ Finset.range m, ∑ q ∈ Finset.range n,
            gy p q * GemmRun alpha 0 ta tb k A (unitM i j) C p q) ∧
      (GemmGradA alpha false false n A B gy =
        fun i j => alpha * dotM n gy (trM B) i j) ∧
      (GemmGradB alpha false false m A B gy =
        fun i j => alpha * dotM m (trM A) gy i j) ∧
      (∀ j, GemmGradC m gy j = ∑ i ∈ Finset.range m, gy i j) := by
  intro alpha beta ta tb m n k A B C gy
  refine ⟨?_, ?_, ?_, ?_, ?_, ?_, fun j => rfl⟩
  · intro t E p q
    cases ta
    · simp only [GemmRun, opT_false, opT_true]
      rw [dotM_add_smul_left]
      ring
    · simp only [GemmRun, opT_false, opT_true]
      have htr : trM (fun a b => A a b + t * E a b) =
          fun a b => trM A a b + t * trM E a b := rfl
      rw [htr, dotM_add_smul_left]
      ring
  · intro t E p q
    cases tb
    · simp only [GemmRun, opT_false, opT_true]
      rw [dotM_add_smul_right]
      ring
    · simp only [GemmRun, opT_false, opT_true]
      have htr : trM (fun a b => B a b + t * E a b) =
          fun a b => trM B a b + t * trM E a b := rfl
      rw [htr, dotM_add_smul_right]
      ring
  · intro i j hi hj
    cases ta
    · simp only [Bool.cond_false] at hi hj
      rw [grad_sum_A_false alpha tb m n k i j hi hj B C gy]
      simp only [GemmGradA, GemmRun, opT_false, opT_true, zero_mul, add_zero, dotM]
      have hsum : (∑ l ∈ Finset.range n, gy i l * opT (!tb) B l j)
          = ∑ l ∈ Finset.range n, gy i l * opT tb B j l :=
        Finset.sum_congr rfl fun l _ => by cases tb <;> rfl
      rw [hsum]
    · simp only [Bool.cond_true] at hi hj
      rw [grad_sum_A_true alpha tb m n k i j hi hj B C gy]
      simp only [GemmGradA, GemmRun, opT_false, opT_true, zero_mul, add_zero, dotM]
      have hsum : (∑ l ∈ Finset.range n, opT tb B i l * trM gy l j)
          = ∑ l ∈ Finset.range n, gy j l * opT tb B i l :=
        Finset.sum_congr rfl fun l _ => by simp only [trM]; ring
      rw [hsum]
  · intro i j hi hj
    cases tb
    · simp only [Bool.cond_false] at hi hj
      rw [grad_sum_B_false alpha ta m n k i j hi hj A C gy]
      simp only [GemmGradB, GemmRun, opT_false, opT_true, zero_mul, add_zero, dotM]
      have hsum : (∑ l ∈ Finset.range m, opT (!ta) A i l * gy l j)
          = ∑ l ∈ Finset.range m, opT ta A l i * gy l j :=
        Finset.sum_congr rfl fun l _ => by cases ta <;> rfl
      rw [hsum]
    · simp only [Bool.cond_true] at hi hj
      rw [grad_sum_B_true alpha ta m n k i j hi hj A C gy]
      simp only [GemmGradB, GemmRun, opT_false, opT_true, zero_mul, add_zero, dotM]
      have hsum : (∑ l ∈ Finset.range m, trM gy i l * opT ta A l j)
          = ∑ l ∈ Finset.range m, gy l i * opT ta A l j :=
        Finset.sum_congr rfl fun l _ => by simp only [trM]
      rw [hsum]
  · funext i j
    simp only [GemmGradA, GemmRun, opT_false, opT_true, Bool.not_false]
    ring
  · funext i j
    simp only [GemmGradB, GemmRun, opT_false, opT_true, Bool.not_false]
    ring

/-- Witness for C4: with alpha 2, beta 3, trans_a false, trans_b true
and 1×1 operands A = 3, B = 5, C = 11 and gy = 7, the emitted operand
gradients equal the gy-weighted forward derivatives and the bias
gradient is the column sum of gy. -/
theorem c4_gemm_grad_closed_forms_witness :
    (GemmGradA 2 false true 1 (fun _ _ => (3 : ℚ)) (fun _ _ => (5 : ℚ))
        (fun _ _ => (7 : ℚ)) 0 0 =
      ∑ p ∈ Finset.range 1, ∑ q ∈ Finset.range 1,
        (fun _ _ => (7 : ℚ)) p q *
          GemmRun 2 0 false true 1 (unitM 0 0) (fun _ _ => (5 : ℚ))
            (fun _ _ => (11 : ℚ)) p q) ∧
    (GemmGradB 2 false true 1 (fun _ _ => (3 : ℚ)) (fun _ _ => (5 : ℚ))
        (fun _ _ => (7 : ℚ)) 0 0 =
      ∑ p ∈ Finset.range 1, ∑ q ∈ Finset.range 1,
        (fun _ _ => (7 : ℚ)) p q *
          GemmRun 2 0 false true 1 (fun _ _ => (3 : ℚ)) (unitM 0 0)
            (fun _ _ => (11 : ℚ)) p q) ∧
    (GemmGradC 1 (fun _ _ => (7 : ℚ)) 0 =
      ∑ i ∈ Finset.range 1, (fun _ _ => (7 : ℚ)) i 0) :=
  ⟨(c4_gemm_grad_closed_forms 2 3 false true 1 1 1 (fun _ _ => (3 : ℚ))
      (fun _ _ => (5 : ℚ)) (fun _ _ => (11 : ℚ))
      (fun _ _ => (7 : ℚ))).2.2.1 0 0 (by decide) (by decide),
   (c4_gemm_grad_closed_forms 2 3 false true 1 1 1 (fun _ _ => (3 : ℚ))
      (fun _ _ => (5 : ℚ)) (fun _ _ => (11 : ℚ))
      (fun _ _ => (7 : ℚ))).2.2.2.1 0 0 (by decide) (by decide),
   (c4_gemm_grad_closed_forms 2 3 false true 1 1 1 (fun _ _ => (3 : ℚ))
      (fun _ _ => (5 : ℚ)) (fun _ _ => (11 : ℚ))
      (fun _ _ => (7 : ℚ))).2.2.2.2.2.2 0⟩

end ChainerCompiler
